import Mathlib

/-!
Shallow embedding of the option-scoring and ranking core of the tripplanner
demo (Next.js route handlers in `src/app/api/plan/route.ts`,
`src/app/api/agent/route.ts` and the unnamed route variants).  JavaScript
numbers are modelled as exact rationals (`ℚ`), JavaScript `undefined` as
`Option`, thrown errors as `Except String`, and `Array.prototype.sort` with a
comparator as the stable `List.mergeSort` (ECMAScript 2019 requires a stable
sort, and the handlers run on Node).
-/

namespace TripPlanner

/-- Transport mode union type (flight, train, drive) of
`src/app/api/plan/route.ts`. -/
inductive TransportMode where
  | flight
  | train
  | drive
deriving DecidableEq

/-- Date-time record `YMD & HMS` of the route files (`ss` is optional). -/
structure DateTime where
  y : ℤ
  m : ℤ
  d : ℤ
  hh : ℤ
  mm : ℤ
  ss : Option ℤ
deriving DecidableEq

/-- Date record `YMD` of the route files. -/
structure YMD where
  y : ℤ
  m : ℤ
  d : ℤ
deriving DecidableEq

/-- `TransportOption` of `src/app/api/plan/route.ts` (lines 11-20): a transport
leg with price, duration in minutes and an optional transfer count. -/
structure TransportOption where
  mode : TransportMode
  provider : String
  dep : DateTime
  arr : DateTime
  price : ℚ
  durationMin : ℚ
  transfers : Option ℚ
  notes : Option String
deriving DecidableEq

/-- `LodgingOption` of `src/app/api/plan/route.ts` (lines 21-28). -/
structure LodgingOption where
  name : String
  location : String
  pricePerNight : ℚ
  rating : ℚ
  reviews : ℚ
  url : Option String
deriving DecidableEq

/-- `scoreTransport` of `src/app/api/plan/route.ts` (lines 57-63): weighted sum
of three capped sub-scores, with caps 300 (price), 600 (minutes), 2
(transfers); a missing transfer count defaults to 0 (`opt.transfers || 0`). -/
def scoreTransport (opt : TransportOption) (wPrice wTime wTransfers : ℚ) : ℚ :=
  let priceCap : ℚ := 300
  let timeCap : ℚ := 600
  let transfersCap : ℚ := 2
  let sPrice := max 0 (1 - opt.price / priceCap)
  let sTime := max 0 (1 - opt.durationMin / timeCap)
  let sTransfers := max 0 (1 - (opt.transfers.getD 0) / transfersCap)
  wPrice * sPrice + wTime * sTime + wTransfers * sTransfers

/-- `scoreTransport` applied with its default weights `0.55 / 0.35 / 0.10`
(the way every call site in the route files invokes it). -/
def scoreTransportDefault (opt : TransportOption) : ℚ :=
  scoreTransport opt 0.55 0.35 0.10

/-- `scoreLodging` of `src/app/api/plan/route.ts` (lines 64-70): rating and
price weighted sum plus a review bonus capped at 0.1. -/
def scoreLodging (opt : LodgingOption) (wRating wPrice : ℚ) : ℚ :=
  let priceCap : ℚ := 200
  let ratingScore := opt.rating / 5
  let priceScore := max 0 (1 - opt.pricePerNight / priceCap)
  let reviewsBonus := min 0.1 ((opt.reviews / 2000) * 0.1)
  wRating * ratingScore + wPrice * priceScore + reviewsBonus

/-- `scoreLodging` applied with its default weights `0.7 / 0.3`. -/
def scoreLodgingDefault (opt : LodgingOption) : ℚ :=
  scoreLodging opt 0.7 0.3

/-- Unfolding equation for `scoreTransport`, shared by the proofs below. -/
theorem scoreTransport_unfold (mo : TransportMode) (pr : String) (dp ar : DateTime)
    (p d : ℚ) (t : Option ℚ) (no : Option String) (w1 w2 w3 : ℚ) :
    scoreTransport ⟨mo, pr, dp, ar, p, d, t, no⟩ w1 w2 w3 =
      w1 * max 0 (1 - p / 300) + w2 * max 0 (1 - d / 600) +
        w3 * max 0 (1 - t.getD 0 / 2) := rfl

/-- Unfolding equation for `scoreLodging`, shared by the proofs below. -/
theorem scoreLodging_unfold (n loc : String) (pn r v : ℚ) (u : Option String)
    (w1 w2 : ℚ) :
    scoreLodging ⟨n, loc, pn, r, v, u⟩ w1 w2 =
      w1 * (r / 5) + w2 * max 0 (1 - pn / 200) + min 0.1 ((v / 2000) * 0.1) := rfl

/-- `Math.round` for exact arithmetic: nearest integer, halves rounding up. -/
def jsRound (q : ℚ) : ℤ := ⌊q + 1 / 2⌋

/-- `seasonalFactor` of `src/app/api/agent/route.ts` (lines 221-223): fixed
month multipliers (August 1.0, July 0.9, June/September 0.8, otherwise 0.6). -/
def seasonalFactor (month : ℤ) : ℚ :=
  if month = 8 then 1.0 else if month = 7 then 0.9 else
    if month = 6 ∨ month = 9 then 0.8 else 0.6

/-- Per-night lodging estimate of the agent route (`src/app/api/agent/route.ts`
line 355): `Math.max(60, Math.round(expected_lodging_per_night_eur *
seasonalFactor(month)))`. -/
def agentPerNight (estPerNight : ℚ) (month : ℤ) : ℤ :=
  max 60 (jsRound (estPerNight * seasonalFactor month))

/-- `flightTotal` of the agent route (line 350): `Math.round(go.price +
back.price)` — the two leg prices are summed before rounding once. -/
def flightTotal (goPrice backPrice : ℚ) : ℤ := jsRound (goPrice + backPrice)

/-- `lodgingTotal` of the agent route (line 356): `perNight * nights`. -/
def lodgingTotal (perNight nights : ℤ) : ℤ := perNight * nights

/-- `total` of the agent route (line 360): flight total plus lodging total. -/
def totalEstimate (goPrice backPrice : ℚ) (perNight nights : ℤ) : ℤ :=
  flightTotal goPrice backPrice + lodgingTotal perNight nights

/-- `underBudget` of the agent route (line 361):
`budget !== undefined ? total <= budget : true`. -/
def underBudget (total : ℤ) (budget : Option ℚ) : Bool :=
  match budget with
  | some b => decide ((total : ℚ) ≤ b)
  | none => true

/-- C1: for every transport option with numeric price, duration and transfer
count, `scoreTransport` with the default weights 0.55/0.35/0.10 equals the
weighted sum of the three capped sub-scores, with price cap 300, duration cap
600 and transfer cap 2. -/
theorem scoreTransport_default_formula (mo : TransportMode) (pr : String)
    (dp ar : DateTime) (p d t : ℚ) (no : Option String) :
    scoreTransport ⟨mo, pr, dp, ar, p, d, some t, no⟩ 0.55 0.35 0.10 =
      0.55 * max 0 (1 - p / 300) + 0.35 * max 0 (1 - d / 600) +
        0.10 * max 0 (1 - t / 2) := rfl

/-- C10: the agent route clamps the estimated per-night lodging price from
below at 60 euro: `perNight = max(60, round(estimate * seasonalFactor month))`
is at least 60 for every estimate and every month. -/
theorem agentPerNight_ge_sixty (estPerNight : ℚ) (month : ℤ) :
    60 ≤ agentPerNight estPerNight month ∧
      agentPerNight estPerNight month =
        max 60 (jsRound (estPerNight * seasonalFactor month)) :=
  ⟨le_max_left _ _, rfl⟩

/-- C5 (counterexample): the total is not `round(outboundPrice) +
round(returnPrice) + perNight*nights`; at outbound 79.5, return 129.5,
3 nights at 85 per night the code rounds the summed leg prices once
(giving 209 + 255 = 464), while rounding each leg separately gives
80 + 130 + 255 = 465. -/
theorem totalEstimate_not_legwise_rounding :
    totalEstimate 79.5 129.5 85 3 = 464 ∧
      jsRound 79.5 + jsRound 129.5 + 85 * 3 = 465 ∧
      totalEstimate 79.5 129.5 85 3 ≠ jsRound 79.5 + jsRound 129.5 + 85 * 3 := by
  have h1 : totalEstimate 79.5 129.5 85 3 = 464 := by
    norm_num [totalEstimate, flightTotal, lodgingTotal, jsRound]
  have h2 : jsRound 79.5 + jsRound 129.5 + 85 * 3 = 465 := by
    norm_num [jsRound]
  exact ⟨h1, h2, by omega⟩

/-- C5 (amended): the assembled total equals `round(outboundPrice +
returnPrice) + perNight*nights` (one rounding of the summed leg prices);
`underBudget` is true when the budget is undefined and otherwise equals
`total ≤ budget`; with outbound 79, return 129 and 3 nights at 85 per night
the total is 463 and `underBudget` is false for budget 400. -/
theorem totalEstimate_underBudget_spec (goPrice backPrice : ℚ)
    (perNight nights : ℤ) (b : ℚ) :
    totalEstimate goPrice backPrice perNight nights =
        jsRound (goPrice + backPrice) + perNight * nights ∧
      underBudget (totalEstimate goPrice backPrice perNight nights) none = true ∧
      (underBudget (totalEstimate goPrice backPrice perNight nights) (some b) = true ↔
        ((totalEstimate goPrice backPrice perNight nights : ℚ) ≤ b)) ∧
      totalEstimate 79 129 85 3 = 463 ∧
      underBudget (totalEstimate 79 129 85 3) (some 400) = false := by
  have hex : totalEstimate 79 129 85 3 = 463 := by
    norm_num [totalEstimate, flightTotal, lodgingTotal, jsRound]
  refine ⟨rfl, rfl, by simp [underBudget], hex, ?_⟩
  rw [hex]
  simp only [underBudget]
  norm_num

/-- Descending comparison used by the selection and sorting call sites: the JS
comparator `(a, b) => score(b) - score(a)` orders `a` no later than `b` exactly
when `score b ≤ score a`. -/
def scoreDescLE {T : Type} (score : T → ℚ) (a b : T) : Bool :=
  decide (score b ≤ score a)

/-- `pickBest` of `src/app/api/plan/route.ts` (line 259):
`arr.sort((a, b) => score(b) - score(a))[0]` — stable descending sort by score,
then the first element; indexing an empty array yields `undefined` (`none`). -/
def pickBest {T : Type} (arr : List T) (score : T → ℚ) : Option T :=
  (arr.mergeSort (scoreDescLE score)).head?

theorem scoreDescLE_trans {T : Type} (score : T → ℚ) (a b c : T) :
    scoreDescLE score a b → scoreDescLE score b c → scoreDescLE score a c := by
  simp only [scoreDescLE, decide_eq_true_eq]
  exact fun h1 h2 => le_trans h2 h1

theorem scoreDescLE_total {T : Type} (score : T → ℚ) (a b : T) :
    scoreDescLE score a b || scoreDescLE score b a := by
  simp only [scoreDescLE, Bool.or_eq_true, decide_eq_true_eq]
  exact le_total (score b) (score a)

/-- Reference function: the first element of the list achieving the maximal
score (specification device for the behaviour of `pickBest`). -/
def firstMax {T : Type} (score : T → ℚ) : List T → Option T
  | [] => none
  | a :: l =>
    match firstMax score l with
    | none => some a
    | some b => if score a < score b then some b else some a

theorem firstMax_mem {T : Type} (score : T → ℚ) :
    ∀ (l : List T) (x : T), firstMax score l = some x → x ∈ l
  | [], x => by simp [firstMax]
  | a :: l, x => by
    simp only [firstMax]
    rcases h : firstMax score l with _ | b
    · intro hx
      cases hx
      exact List.mem_cons_self a l
    · rcases lt_or_le (score a) (score b) with hab | hab
      · dsimp only
        rw [if_pos hab]
        intro hx
        cases hx
        exact List.mem_cons_of_mem a (firstMax_mem score l x h)
      · dsimp only
        rw [if_neg (not_lt.mpr hab)]
        intro hx
        cases hx
        exact List.mem_cons_self a l

theorem firstMax_eq_none_iff {T : Type} (score : T → ℚ) :
    ∀ l : List T, firstMax score l = none ↔ l = []
  | [] => by simp [firstMax]
  | a :: l => by
    simp only [firstMax]
    rcases firstMax score l with _ | b
    · simp
    · rcases lt_or_le (score a) (score b) with hab | hab
      · dsimp only
        rw [if_pos hab]; simp
      · dsimp only
        rw [if_neg (not_lt.mpr hab)]; simp

theorem firstMax_isMax {T : Type} (score : T → ℚ) :
    ∀ (l : List T) (x : T), firstMax score l = some x → ∀ y ∈ l, score y ≤ score x
  | [], x => by simp [firstMax]
  | a :: l, x => by
    simp only [firstMax]
    rcases h : firstMax score l with _ | b
    · intro hx y hy
      cases hx
      have hl : l = [] := (firstMax_eq_none_iff score l).mp h
      subst hl
      rcases List.mem_cons.mp hy with rfl | hy'
      · exact le_refl _
      · exact absurd hy' (List.not_mem_nil y)
    · rcases lt_or_le (score a) (score b) with hab | hab
      · dsimp only
        rw [if_pos hab]
        intro hx y hy
        cases hx
        rcases List.mem_cons.mp hy with rfl | hy'
        · exact le_of_lt hab
        · exact firstMax_isMax score l x h y hy'
      · dsimp only
        rw [if_neg (not_lt.mpr hab)]
        intro hx y hy
        cases hx
        rcases List.mem_cons.mp hy with rfl | hy'
        · exact le_refl _
        · exact le_trans (firstMax_isMax score l b h y hy') hab

/-- `pickBest` computes exactly the first maximal-score element: head of a
stable descending mergesort. -/
theorem pickBest_eq_firstMax {T : Type} (score : T → ℚ) :
    ∀ l : List T, pickBest l score = firstMax score l
  | [] => by simp [pickBest, firstMax]
  | a :: l => by
    have ih := pickBest_eq_firstMax score l
    obtain ⟨l₁, l₂, h1, h2, h3⟩ :=
      List.mergeSort_cons (scoreDescLE_trans score) (scoreDescLE_total score) a l
    have hs := List.sorted_mergeSort
      (scoreDescLE_trans score) (scoreDescLE_total score) (a :: l)
    rcases l₁ with _ | ⟨c, t⟩
    · -- the sorted list starts with `a` itself
      simp only [List.nil_append] at h1 h2
      rcases l₂ with _ | ⟨b, t₂⟩
      · have hl : l = [] := by
          have := congrArg List.length h2
          simpa using this
        subst hl
        simp [pickBest, firstMax, h1]
      · have hba : score b ≤ score a := by
          rw [h1] at hs
          have := (List.pairwise_cons.mp hs).1 b (List.mem_cons_self b t₂)
          simpa [scoreDescLE] using this
        have hfl : firstMax score l = some b := by
          rw [← ih]
          simp [pickBest, h2]
        simp [pickBest, h1, firstMax, hfl, not_lt.mpr hba]
    · -- the sorted list starts with an element `c` strictly better than `a`
      have hac : score a < score c := by
        have := h3 c (List.mem_cons_self c t)
        simpa [scoreDescLE, not_le] using this
      have hfl : firstMax score l = some c := by
        rw [← ih]
        simp [pickBest, h2]
      simp [pickBest, h1, firstMax, hfl, hac]

/-- On a non-empty list, `pickBest` yields a member with maximal score
(shared workhorse for the selection properties). -/
theorem pickBest_spec {T : Type} (score : T → ℚ) (arr : List T)
    (h : arr ≠ []) :
    ∃ x, pickBest arr score = some x ∧ x ∈ arr ∧ ∀ y ∈ arr, score y ≤ score x := by
  rcases arr with _ | ⟨a, l⟩
  · exact absurd rfl h
  have hx : ∃ x, firstMax score (a :: l) = some x := by
    simp only [firstMax]
    rcases firstMax score l with _ | b
    · exact ⟨a, rfl⟩
    · dsimp only
      rcases lt_or_le (score a) (score b) with hab | hab
      · exact ⟨b, if_pos hab⟩
      · exact ⟨a, if_neg (not_lt.mpr hab)⟩
  obtain ⟨x, hx⟩ := hx
  exact ⟨x, by rw [pickBest_eq_firstMax]; exact hx,
    firstMax_mem score _ x hx, firstMax_isMax score _ x hx⟩

/-- C2: over a non-empty list, `pickBest` returns an element of the list whose
score is greater than or equal to the score of every element of the list. -/
theorem pickBest_returns_max {T : Type} (score : T → ℚ) (arr : List T)
    (h : arr ≠ []) :
    ∃ x, pickBest arr score = some x ∧ x ∈ arr ∧ ∀ y ∈ arr, score y ≤ score x :=
  pickBest_spec score arr h

theorem firstMax_first_of_max {T : Type} (score : T → ℚ) :
    ∀ (l₁ : List T) (x : T) (l₂ : List T),
      (∀ y ∈ l₂, score y ≤ score x) → (∀ y ∈ l₁, score y < score x) →
      firstMax score (l₁ ++ x :: l₂) = some x
  | [], x, l₂ => by
    intro hmax _
    simp only [List.nil_append, firstMax]
    rcases h : firstMax score l₂ with _ | b
    · rfl
    · dsimp only
      have hb : score b ≤ score x := hmax b (firstMax_mem score l₂ b h)
      rw [if_neg (not_lt.mpr hb)]
  | c :: t, x, l₂ => by
    intro hmax hfirst
    have ih := firstMax_first_of_max score t x l₂ hmax
      (fun y hy => hfirst y (List.mem_cons_of_mem c hy))
    have hgoal : firstMax score ((c :: t) ++ x :: l₂)
        = match firstMax score (t ++ x :: l₂) with
          | none => some c
          | some b => if score c < score b then some b else some c := rfl
    rw [hgoal, ih]
    dsimp only
    rw [if_pos (hfirst c (List.mem_cons_self c t))]

/-- C8: the selection is a stable maximum: when the maximal score is attained
by two or more options, `pickBest` returns the one occurring first in the
input order (`x` below: everything before it scores strictly lower, everything
scores no higher, and at least one later option ties with it). -/
theorem pickBest_stable_max {T : Type} (score : T → ℚ) (l₁ l₂ : List T) (x : T)
    (hmax : ∀ y ∈ l₁ ++ x :: l₂, score y ≤ score x)
    (hfirst : ∀ y ∈ l₁, score y < score x)
    (htie : ∃ y ∈ l₂, score y = score x) :
    pickBest (l₁ ++ x :: l₂) score = some x := by
  have := htie
  rw [pickBest_eq_firstMax]
  exact firstMax_first_of_max score l₁ x l₂
    (fun y hy => hmax y (List.mem_append_right l₁ (List.mem_cons_of_mem x hy)))
    hfirst

/-- `mockTrains` of `src/app/api/plan/route.ts` (lines 253-258): the two mock
train options used when the train mode is enabled. -/
def mockTrains (origin dest : String) (d : YMD) : List TransportOption :=
  [{ mode := TransportMode.train, provider := "Frecciarossa",
     dep := ⟨d.y, d.m, d.d, 7, 30, none⟩, arr := ⟨d.y, d.m, d.d, 10, 35, none⟩,
     price := 59, durationMin := 185, transfers := some 0,
     notes := some "Alta velocità" },
   { mode := TransportMode.train, provider := "Italo",
     dep := ⟨d.y, d.m, d.d, 8, 30, none⟩, arr := ⟨d.y, d.m, d.d, 12, 30, none⟩,
     price := 49, durationMin := 240, transfers := some 0,
     notes := some "Diretto" }]

/-- `pickBestTransport` of `src/app/api/plan/route.ts` (lines 289-310),
restricted to its pure tail: given the merged provider option list, it throws
`Nessuna opzione di trasporto disponibile ...` when the list is empty
(`if (!list.length) throw …`) and otherwise returns `pickBest(list,
scoreTransport)`.  The final `Option.elim` error arm is unreachable:
`pickBest` is `none` only on the empty list. -/
def pickBestTransport (list : List TransportOption) : Except String TransportOption :=
  if list.length = 0 then
    Except.error "Nessuna opzione di trasporto disponibile (verifica API keys o abilita almeno un mock)"
  else
    (pickBest list scoreTransportDefault).elim
      (Except.error "Nessuna opzione di trasporto disponibile (verifica API keys o abilita almeno un mock)")
      Except.ok

/-- C3: on an empty option list, `pickBest` yields the empty result (`none`,
the JS `undefined`), and the selection step `pickBestTransport` built on it
surfaces a thrown user-facing error rather than a default option. -/
theorem pickBest_empty_not_found :
    pickBest ([] : List TransportOption) scoreTransportDefault = none ∧
      pickBestTransport [] =
        Except.error "Nessuna opzione di trasporto disponibile (verifica API keys o abilita almeno un mock)" ∧
      ∀ list : List TransportOption, list ≠ [] →
        ∃ x, pickBestTransport list = Except.ok x ∧ x ∈ list := by
  refine ⟨by simp [pickBest], rfl, ?_⟩
  intro list hne
  obtain ⟨x, hx, hmem, _⟩ := pickBest_spec scoreTransportDefault list hne
  refine ⟨x, ?_, hmem⟩
  have hlen : list.length ≠ 0 := fun h => hne (List.length_eq_zero.mp h)
  simp [pickBestTransport, hlen, hx]

/-- Witness for C2: on the two mock train options the selection returns a
member that scores at least as high as both. -/
theorem pickBest_returns_max_witness :
    ∃ x, pickBest (mockTrains "Roma" "Milano" ⟨2025, 7, 1⟩) scoreTransportDefault
          = some x ∧
        x ∈ mockTrains "Roma" "Milano" ⟨2025, 7, 1⟩ ∧
        ∀ y ∈ mockTrains "Roma" "Milano" ⟨2025, 7, 1⟩,
          scoreTransportDefault y ≤ scoreTransportDefault x :=
  pickBest_returns_max scoreTransportDefault _ (by simp [mockTrains])

/-- Witness for C3: on the non-empty mock train list the selection step
succeeds with a member of the list. -/
theorem pickBest_empty_not_found_witness :
    ∃ x, pickBestTransport (mockTrains "Roma" "Milano" ⟨2025, 7, 1⟩) = Except.ok x ∧
      x ∈ mockTrains "Roma" "Milano" ⟨2025, 7, 1⟩ :=
  pickBest_empty_not_found.2.2 _ (by simp [mockTrains])

/-- A deliberately poor transport option used as a concrete selection input. -/
def slowOption : TransportOption :=
  { mode := TransportMode.train, provider := "Regionale",
    dep := ⟨2025, 7, 1, 9, 0, none⟩, arr := ⟨2025, 7, 1, 17, 20, none⟩,
    price := 250, durationMin := 500, transfers := some 2, notes := none }

/-- A strong transport option used as a concrete selection input. -/
def fastOption : TransportOption :=
  { mode := TransportMode.train, provider := "Frecciarossa",
    dep := ⟨2025, 7, 1, 7, 30, none⟩, arr := ⟨2025, 7, 1, 10, 35, none⟩,
    price := 59, durationMin := 185, transfers := some 0, notes := none }

/-- A twin of `fastOption` with the same numeric fields (equal score). -/
def fastTwin : TransportOption :=
  { mode := TransportMode.train, provider := "Italo",
    dep := ⟨2025, 7, 1, 8, 0, none⟩, arr := ⟨2025, 7, 1, 11, 5, none⟩,
    price := 59, durationMin := 185, transfers := some 0, notes := none }

/-- Witness for C8: between two equally scored best options the first in
input order is selected, even with a worse option in front. -/
theorem pickBest_stable_max_witness :
    pickBest ([slowOption] ++ fastOption :: [fastTwin]) scoreTransportDefault
      = some fastOption :=
  pickBest_stable_max scoreTransportDefault [slowOption] [fastTwin] fastOption
    (by
      intro y hy
      fin_cases hy <;>
        norm_num [scoreTransportDefault, scoreTransport, slowOption, fastOption,
          fastTwin, max_def, min_def])
    (by
      intro y hy
      fin_cases hy
      norm_num [scoreTransportDefault, scoreTransport, slowOption, fastOption,
        max_def, min_def])
    ⟨fastTwin, by simp, rfl⟩

/-- `scoreFlight` of `src/app/api/agent/route.ts` (lines 174-180): the agent
variant of the transport score, with caps 2000/900/2 and weights 0.6/0.3/0.1. -/
def scoreFlight (price durationMin transfers : ℚ) : ℚ :=
  let priceCap : ℚ := 2000
  let timeCap : ℚ := 900
  let transfersCap : ℚ := 2
  let sPrice := max 0 (1 - price / priceCap)
  let sTime := max 0 (1 - durationMin / timeCap)
  let sTransfers := max 0 (1 - transfers / transfersCap)
  0.6 * sPrice + 0.3 * sTime + 0.1 * sTransfers

/-- C6: both transport scores are monotonically non-increasing in price,
duration and transfer count (the other fields held fixed) and never
negative. -/
theorem scoreTransport_mono_nonneg (mo : TransportMode) (pr : String)
    (dp ar : DateTime) (no : Option String) (p p' d d' t t' : ℚ)
    (hp : p ≤ p') (hd : d ≤ d') (ht : t ≤ t') :
    scoreTransport ⟨mo, pr, dp, ar, p', d, some t, no⟩ 0.55 0.35 0.10 ≤
        scoreTransport ⟨mo, pr, dp, ar, p, d, some t, no⟩ 0.55 0.35 0.10 ∧
      scoreTransport ⟨mo, pr, dp, ar, p, d', some t, no⟩ 0.55 0.35 0.10 ≤
        scoreTransport ⟨mo, pr, dp, ar, p, d, some t, no⟩ 0.55 0.35 0.10 ∧
      scoreTransport ⟨mo, pr, dp, ar, p, d, some t', no⟩ 0.55 0.35 0.10 ≤
        scoreTransport ⟨mo, pr, dp, ar, p, d, some t, no⟩ 0.55 0.35 0.10 ∧
      0 ≤ scoreTransport ⟨mo, pr, dp, ar, p, d, some t, no⟩ 0.55 0.35 0.10 ∧
      scoreFlight p' d t ≤ scoreFlight p d t ∧
      scoreFlight p d' t ≤ scoreFlight p d t ∧
      scoreFlight p d t' ≤ scoreFlight p d t ∧
      0 ≤ scoreFlight p d t := by
  simp only [scoreTransport_unfold, scoreFlight, Option.getD_some]
  have m1 : max (0:ℚ) (1 - p' / 300) ≤ max 0 (1 - p / 300) :=
    max_le_max le_rfl (by linarith)
  have m2 : max (0:ℚ) (1 - d' / 600) ≤ max 0 (1 - d / 600) :=
    max_le_max le_rfl (by linarith)
  have m3 : max (0:ℚ) (1 - t' / 2) ≤ max 0 (1 - t / 2) :=
    max_le_max le_rfl (by linarith)
  have m4 : max (0:ℚ) (1 - p' / 2000) ≤ max 0 (1 - p / 2000) :=
    max_le_max le_rfl (by linarith)
  have m5 : max (0:ℚ) (1 - d' / 900) ≤ max 0 (1 - d / 900) :=
    max_le_max le_rfl (by linarith)
  have n1 := le_max_left (0:ℚ) (1 - p / 300)
  have n2 := le_max_left (0:ℚ) (1 - d / 600)
  have n3 := le_max_left (0:ℚ) (1 - t / 2)
  have n4 := le_max_left (0:ℚ) (1 - p / 2000)
  have n5 := le_max_left (0:ℚ) (1 - d / 900)
  refine ⟨by linarith, by linarith, by linarith, by linarith,
    by linarith, by linarith, by linarith, by linarith⟩

/-- Witness for C6 at concrete prices 50 ≤ 100, durations 100 ≤ 200 and
transfer counts 0 ≤ 1. -/
theorem scoreTransport_mono_nonneg_witness :
    scoreTransport ⟨TransportMode.flight, "W6", ⟨2025, 7, 1, 7, 0, none⟩,
          ⟨2025, 7, 1, 9, 0, none⟩, 100, 100, some 0, none⟩ 0.55 0.35 0.10 ≤
        scoreTransport ⟨TransportMode.flight, "W6", ⟨2025, 7, 1, 7, 0, none⟩,
          ⟨2025, 7, 1, 9, 0, none⟩, 50, 100, some 0, none⟩ 0.55 0.35 0.10 ∧
      scoreTransport ⟨TransportMode.flight, "W6", ⟨2025, 7, 1, 7, 0, none⟩,
          ⟨2025, 7, 1, 9, 0, none⟩, 50, 200, some 0, none⟩ 0.55 0.35 0.10 ≤
        scoreTransport ⟨TransportMode.flight, "W6", ⟨2025, 7, 1, 7, 0, none⟩,
          ⟨2025, 7, 1, 9, 0, none⟩, 50, 100, some 0, none⟩ 0.55 0.35 0.10 ∧
      scoreTransport ⟨TransportMode.flight, "W6", ⟨2025, 7, 1, 7, 0, none⟩,
          ⟨2025, 7, 1, 9, 0, none⟩, 50, 100, some 1, none⟩ 0.55 0.35 0.10 ≤
        scoreTransport ⟨TransportMode.flight, "W6", ⟨2025, 7, 1, 7, 0, none⟩,
          ⟨2025, 7, 1, 9, 0, none⟩, 50, 100, some 0, none⟩ 0.55 0.35 0.10 ∧
      0 ≤ scoreTransport ⟨TransportMode.flight, "W6", ⟨2025, 7, 1, 7, 0, none⟩,
          ⟨2025, 7, 1, 9, 0, none⟩, 50, 100, some 0, none⟩ 0.55 0.35 0.10 ∧
      scoreFlight 100 100 0 ≤ scoreFlight 50 100 0 ∧
      scoreFlight 50 200 0 ≤ scoreFlight 50 100 0 ∧
      scoreFlight 50 100 1 ≤ scoreFlight 50 100 0 ∧
      0 ≤ scoreFlight 50 100 0 :=
  scoreTransport_mono_nonneg TransportMode.flight "W6" ⟨2025, 7, 1, 7, 0, none⟩
    ⟨2025, 7, 1, 9, 0, none⟩ none 50 100 100 200 0 1
    (by norm_num) (by norm_num) (by norm_num)

/-- C7: the lodging score is monotonically non-decreasing in rating and
non-increasing in nightly price; the review bonus it adds is at most 0.1
whatever the review count, so two options differing only in (non-negative)
review count score within 0.1 of each other. -/
theorem scoreLodging_mono_bonus (n loc : String) (u : Option String)
    (pn r r' p p' v v' : ℚ) (hr : r ≤ r') (hp : p ≤ p')
    (hv : 0 ≤ v) (hv' : 0 ≤ v') :
    scoreLodging ⟨n, loc, pn, r, v, u⟩ 0.7 0.3 ≤
        scoreLodging ⟨n, loc, pn, r', v, u⟩ 0.7 0.3 ∧
      scoreLodging ⟨n, loc, p', r, v, u⟩ 0.7 0.3 ≤
        scoreLodging ⟨n, loc, p, r, v, u⟩ 0.7 0.3 ∧
      scoreLodging ⟨n, loc, pn, r, v, u⟩ 0.7 0.3 -
          scoreLodging ⟨n, loc, pn, r, 0, u⟩ 0.7 0.3 ≤ 0.1 ∧
      |scoreLodging ⟨n, loc, pn, r, v, u⟩ 0.7 0.3 -
          scoreLodging ⟨n, loc, pn, r, v', u⟩ 0.7 0.3| ≤ 0.1 := by
  simp only [scoreLodging_unfold]
  have b1 : min (0.1:ℚ) ((v / 2000) * 0.1) ≤ 0.1 := min_le_left _ _
  have b2 : min (0.1:ℚ) ((v' / 2000) * 0.1) ≤ 0.1 := min_le_left _ _
  have b1' : 0 ≤ min (0.1:ℚ) ((v / 2000) * 0.1) :=
    le_min (by norm_num) (mul_nonneg (div_nonneg hv (by norm_num)) (by norm_num))
  have b2' : 0 ≤ min (0.1:ℚ) ((v' / 2000) * 0.1) :=
    le_min (by norm_num) (mul_nonneg (div_nonneg hv' (by norm_num)) (by norm_num))
  have bz : min (0.1:ℚ) (((0:ℚ) / 2000) * 0.1) = 0 := by
    norm_num
  have mprice : max (0:ℚ) (1 - p' / 200) ≤ max 0 (1 - p / 200) :=
    max_le_max le_rfl (by linarith)
  refine ⟨by linarith, by linarith, by rw [bz]; linarith, ?_⟩
  rw [abs_le]
  constructor <;> linarith

/-- Witness for C7 at the concrete lodging numbers of the mock
data (ratings 4 ≤ 4.5, prices 85 ≤ 110, review counts 650 and 1800). -/
theorem scoreLodging_mono_bonus_witness :
    scoreLodging ⟨"B&B", "Roma", 100, 4, 650, none⟩ 0.7 0.3 ≤
        scoreLodging ⟨"B&B", "Roma", 100, 4.5, 650, none⟩ 0.7 0.3 ∧
      scoreLodging ⟨"B&B", "Roma", 110, 4, 650, none⟩ 0.7 0.3 ≤
        scoreLodging ⟨"B&B", "Roma", 85, 4, 650, none⟩ 0.7 0.3 ∧
      scoreLodging ⟨"B&B", "Roma", 100, 4, 650, none⟩ 0.7 0.3 -
          scoreLodging ⟨"B&B", "Roma", 100, 4, 0, none⟩ 0.7 0.3 ≤ 0.1 ∧
      |scoreLodging ⟨"B&B", "Roma", 100, 4, 650, none⟩ 0.7 0.3 -
          scoreLodging ⟨"B&B", "Roma", 100, 4, 1800, none⟩ 0.7 0.3| ≤ 0.1 :=
  scoreLodging_mono_bonus "B&B" "Roma" none 100 4 4.5 85 110 650 1800
    (by norm_num) (by norm_num) (by norm_num) (by norm_num)

/-- Date comparison used by the handlers: `new Date(returnISO) <=
new Date(departISO)` on valid calendar dates is the lexicographic order on
(year, month, day). -/
def ymdLe (a b : YMD) : Bool :=
  decide (a.y < b.y ∨ (a.y = b.y ∧ (a.m < b.m ∨ (a.m = b.m ∧ a.d ≤ b.d))))

/-- Outcome of the validation prefix of the POST handler: either an early JSON
error response with an HTTP status, or the go-ahead to perform the transport
and lodging lookups with the validated fields. -/
inductive PlanStep where
  | reject (status : ℕ) (msg : String)
  | lookup (origin dest : String) (departDate returnDate : YMD)
deriving DecidableEq

/-- Error message of the missing-fields check (`src/app/api/plan/route.ts`
line 342). -/
def reqFieldsMsg : String := "origin, dest, departDate, returnDate sono obbligatori"

/-- Error message of the date-order check (`src/app/api/plan/route.ts`
line 345). -/
def dateOrderMsg : String := "La data di ritorno deve essere dopo la partenza"

/-- Validation prefix of `POST` in `src/app/api/plan/route.ts` (lines
330-350): a missing body field becomes the empty string via the
`String(body.x || ...)` coercion, the handler 400-rejects when any of the
four fields is falsy, then
400-rejects when the return date is not strictly after the departure date,
and only otherwise proceeds to `pickBestTransport` / `pickBestLodging`.
A missing or empty date string is modelled as `none`. -/
def planHandlerValidate (origin dest : String) (departDate returnDate : Option YMD) :
    PlanStep :=
  match departDate, returnDate with
  | some dFrom, some dTo =>
    if origin = "" ∨ dest = "" then PlanStep.reject 400 reqFieldsMsg
    else if ymdLe dTo dFrom then PlanStep.reject 400 dateOrderMsg
    else PlanStep.lookup origin dest dFrom dTo
  | _, _ => PlanStep.reject 400 reqFieldsMsg

/-- C9: whenever origin, dest, departDate or returnDate is missing, or the
return date is not strictly after the departure date (equality included), the
planning endpoint answers with a 400 response carrying a non-empty
human-readable message, and never reaches the transport/lodging lookups. -/
theorem planHandlerValidate_rejects (origin dest : String)
    (departDate returnDate : Option YMD)
    (h : origin = "" ∨ dest = "" ∨ departDate = none ∨ returnDate = none ∨
      ∃ a b, departDate = some a ∧ returnDate = some b ∧ ymdLe b a = true) :
    ∃ msg, planHandlerValidate origin dest departDate returnDate =
        PlanStep.reject 400 msg ∧ msg ≠ "" := by
  have hreq : reqFieldsMsg ≠ "" := by simp [reqFieldsMsg]
  have hord : dateOrderMsg ≠ "" := by simp [dateOrderMsg]
  rcases departDate with _ | a
  · exact ⟨reqFieldsMsg, rfl, hreq⟩
  rcases returnDate with _ | b
  · exact ⟨reqFieldsMsg, rfl, hreq⟩
  by_cases hod : origin = "" ∨ dest = ""
  · exact ⟨reqFieldsMsg, by simp [planHandlerValidate, hod], hreq⟩
  · have hba : ymdLe b a = true := by
      rcases h with h | h | h | h | ⟨a', b', ha', hb', hle⟩
      · exact absurd (Or.inl h) hod
      · exact absurd (Or.inr h) hod
      · exact absurd h (by simp)
      · exact absurd h (by simp)
      · obtain rfl : a = a' := by injection ha'
        obtain rfl : b = b' := by injection hb'
        exact hle
    exact ⟨dateOrderMsg, by simp [planHandlerValidate, hod, hba], hord⟩

/-- Witness for C9: equal departure and return dates are rejected with a 400
and a non-empty message. -/
theorem planHandlerValidate_rejects_witness :
    ∃ msg, planHandlerValidate "Roma" "Milano"
        (some ⟨2025, 7, 1⟩) (some ⟨2025, 7, 1⟩) = PlanStep.reject 400 msg ∧
      msg ≠ "" :=
  planHandlerValidate_rejects "Roma" "Milano" (some ⟨2025, 7, 1⟩) (some ⟨2025, 7, 1⟩)
    (Or.inr (Or.inr (Or.inr (Or.inr ⟨⟨2025, 7, 1⟩, ⟨2025, 7, 1⟩, rfl, rfl, by
      simp [ymdLe]⟩))))

/-- `WebSignals` of `src/unnamed/part_001` (line 23), restricted to the trend
score — the only field the ranking comparator reads (the article list rides
along unused). -/
structure WebSignals where
  trendScore : ℚ
deriving DecidableEq

/-- `Proposal` of `src/unnamed/part_001` (lines 25-44), restricted to the
three fields the ranking comparator reads: the budget-compliance flag, the
optional web signals and the total estimated price.  The other fields (id,
destination, dates, party, flight legs, lodging, calendar payloads) are
carried unchanged through the sort. -/
structure Proposal where
  underBudget : Bool
  web : Option WebSignals
  totalEstimate : ℚ
deriving DecidableEq

/-- Trend value the comparator reads: `p.web?.trendScore ?? 0`. -/
def trendOf (p : Proposal) : ℚ := (p.web.map WebSignals.trendScore).getD 0

/-- Ranking comparator of `src/unnamed/part_001` (lines 416-422), as a `≤`
relation: `proposalCmpLE a b` holds exactly when the JS comparator returns a
non-positive value on `(a, b)` — under-budget proposals first, then trend
score descending (an absent signal counting 0), then total estimated price
ascending. -/
def proposalCmpLE (a b : Proposal) : Bool :=
  if a.underBudget && !b.underBudget then true
  else if !a.underBudget && b.underBudget then false
  else
    if trendOf b = trendOf a then decide (a.totalEstimate ≤ b.totalEstimate)
    else decide (trendOf b < trendOf a)

/-- `proposals.sort(comparator)` of `src/unnamed/part_001` (line 416): a
stable sort by the ranking comparator. -/
def rankProposals (proposals : List Proposal) : List Proposal :=
  proposals.mergeSort proposalCmpLE

/-- Numeric rank of the budget-compliance group (under-budget first). -/
def budgetRank (p : Proposal) : ℕ := if p.underBudget then 0 else 1

theorem proposalCmpLE_iff (a b : Proposal) :
    proposalCmpLE a b = true ↔
      (budgetRank a < budgetRank b ∨ (budgetRank a = budgetRank b ∧
        (trendOf b < trendOf a ∨
          (trendOf b = trendOf a ∧ a.totalEstimate ≤ b.totalEstimate)))) := by
  cases ha : a.underBudget <;> cases hb : b.underBudget <;>
      simp only [proposalCmpLE, budgetRank, ha, hb, Bool.not_true, Bool.not_false,
        Bool.and_true, Bool.and_false, Bool.true_and, Bool.false_and,
        if_true, if_false] <;>
    rcases eq_or_ne (trendOf b) (trendOf a) with h | h <;>
      simp [h, lt_iff_le_and_ne]

theorem proposalCmpLE_trans (a b c : Proposal) :
    proposalCmpLE a b → proposalCmpLE b c → proposalCmpLE a c := by
  intro h1 h2
  replace h1 := (proposalCmpLE_iff a b).mp h1
  replace h2 := (proposalCmpLE_iff b c).mp h2
  refine (proposalCmpLE_iff a c).mpr ?_
  rcases h1 with h1 | ⟨e1, h1⟩
  · rcases h2 with h2 | ⟨e2, h2⟩
    · exact Or.inl (lt_trans h1 h2)
    · exact Or.inl (by omega)
  · rcases h2 with h2 | ⟨e2, h2⟩
    · exact Or.inl (by omega)
    · refine Or.inr ⟨by omega, ?_⟩
      rcases h1 with h1 | ⟨t1, p1⟩
      · rcases h2 with h2 | ⟨t2, p2⟩
        · exact Or.inl (lt_trans h2 h1)
        · exact Or.inl (by rw [t2]; exact h1)
      · rcases h2 with h2 | ⟨t2, p2⟩
        · exact Or.inl (by rw [← t1]; exact h2)
        · exact Or.inr ⟨t2.trans t1, le_trans p1 p2⟩

theorem proposalCmpLE_total (a b : Proposal) :
    proposalCmpLE a b || proposalCmpLE b a := by
  simp only [Bool.or_eq_true, proposalCmpLE_iff]
  rcases lt_trichotomy (budgetRank a) (budgetRank b) with h | h | h
  · exact Or.inl (Or.inl h)
  · rcases lt_trichotomy (trendOf b) (trendOf a) with ht | ht | ht
    · exact Or.inl (Or.inr ⟨h, Or.inl ht⟩)
    · rcases le_total a.totalEstimate b.totalEstimate with hp | hp
      · exact Or.inl (Or.inr ⟨h, Or.inr ⟨ht, hp⟩⟩)
      · exact Or.inr (Or.inr ⟨h.symm, Or.inr ⟨ht.symm, hp⟩⟩)
    · exact Or.inr (Or.inr ⟨h.symm, Or.inl ht⟩)
  · exact Or.inr (Or.inl h)

/-- C4: the ranked proposal list is sorted so that (a) every under-budget
proposal precedes every over-budget one, (b) within the same
budget-compliance group the trend signal is descending (an absent signal
counting 0, so in particular descending whenever both signals are present),
and (c) at equal trend signal the total estimated price is ascending. -/
theorem rankProposals_sorted (proposals : List Proposal) :
    (rankProposals proposals).Pairwise (fun a b =>
      (b.underBudget = true → a.underBudget = true) ∧
      (a.underBudget = b.underBudget → trendOf b ≤ trendOf a) ∧
      (a.underBudget = b.underBudget → trendOf a = trendOf b →
        a.totalEstimate ≤ b.totalEstimate)) := by
  have hs := List.sorted_mergeSort proposalCmpLE_trans proposalCmpLE_total proposals
  refine List.Pairwise.imp ?_ hs
  intro a b hab
  replace hab := (proposalCmpLE_iff a b).mp hab
  refine ⟨?_, ?_, ?_⟩
  · intro hb
    cases hau : a.underBudget
    · exfalso
      rcases hab with h | ⟨h, _⟩ <;> simp [budgetRank, hau, hb] at h
    · rfl
  · intro he
    have hrk : budgetRank a = budgetRank b := by simp only [budgetRank, he]
    rcases hab with h | ⟨_, h⟩
    · exact absurd h (by omega)
    · rcases h with h | ⟨h, _⟩
      · exact le_of_lt h
      · exact le_of_eq h
  · intro he htr
    have hrk : budgetRank a = budgetRank b := by simp only [budgetRank, he]
    rcases hab with h | ⟨_, h⟩
    · exact absurd h (by omega)
    · rcases h with h | ⟨_, h⟩
      · exact absurd htr (by intro hq; rw [hq] at h; exact lt_irrefl _ h)
      · exact h

end TripPlanner
